import Mathlib

/-
Verification of the four-module agent orchestrator (Agent.step) of the
pokeagent-speedrun repository, shallow-embedded in Lean.

The Python shared context dict becomes the structure Ctx; the four stage
functions (perception_step, memory_step, planning_step, action_step) are
external collaborators, modelled as a record of arbitrary functions whose
raised exceptions are modelled by Except.error; the deque with maxlen 25
becomes a list with a bounding append.
-/

namespace Agent

/-- Frames (PIL images) are opaque tokens; every present frame is truthy. -/
abbrev Frame := Nat

/-- Plans are opaque values returned by the planning stage. -/
abbrev Plan := String

/-- The value stored under the snapshot key called visual: a mapping that may
hold a screenshot. Payload beyond the screenshot key is irrelevant to step. -/
structure Visual where
  screenshot : Option Frame
  deriving DecidableEq

/-- The snapshot mapping minus the frame key (the residual state_data dict of
step). All keys are optional; the audio key is modelled by the field
audio_data. Opaque payloads are modelled as Nat tokens. -/
structure StateData where
  step_number : Option Nat
  game_state : Option Nat
  visual : Option Visual
  audio_data : Option Nat
  progress : Option Nat
  deriving DecidableEq

/-- The game_state argument of Agent.step: an optional top-level frame plus
the residual keys. -/
structure Snapshot where
  frame : Option Frame
  state : StateData
  deriving DecidableEq

/-- The observation dict returned by the perception stage: an optional
description key, plus its Python str rendering used as the fallback. -/
structure ObsDict where
  description : Option String
  str_repr : String
  deriving DecidableEq

/-- The observation_entry dict built in step and handed to memory_step. -/
structure ObsEntry where
  frame_id : Nat
  observation : String
  state : StateData
  deriving DecidableEq

/-- The duck-typed raw result of action_step: Python None, a comma-delimited
string, or an iterable of tokens (already ordered). -/
inductive ActionResult where
  | noResult : ActionResult
  | ofStr (s : String) : ActionResult
  | ofList (l : List String) : ActionResult
  deriving DecidableEq

/-- The shared context dict self.context created in Agent.__init__ for the
four-module mode. memory_context is Option String because Python would let
the memory stage store None. -/
structure Ctx where
  memory_context : Option String
  current_plan : Option Plan
  recent_actions : List String
  last_observation : Option ObsDict
  step_counter : Nat
  deriving DecidableEq

/-- The dict returned by step on success: all four keys are always present. -/
structure Decision where
  action : List String
  observation : ObsDict
  plan : Option Plan
  memory_context : Option String
  deriving DecidableEq

/-- Behaviours of the four external stage calls; Except.error models a raised
exception, which the orchestrator catches. -/
structure Stages where
  perception_step : Option Frame → StateData → Except Unit (ObsDict × Bool)
  memory_step : Option String → Option Plan → List String → List ObsEntry → Except Unit (Option String)
  planning_step : Option String → Option Plan → Bool → StateData → Except Unit (Option Plan)
  action_step : Option String → Option Plan → String → Option Frame → StateData → List String → Except Unit ActionResult

/-- Capacity of the recent_actions deque: deque(maxlen=25) in Agent.__init__. -/
def RECENT_MAXLEN : Nat := 25

/-- Appending to a deque with a maxlen: the element is appended and, when the
capacity is exceeded, the oldest elements are discarded from the left. -/
def dequeAppend {α : Type} (maxlen : Nat) (l : List α) (a : α) : List α :=
  let l2 := l ++ [a]
  if maxlen < l2.length then l2.drop (l2.length - maxlen) else l2

/-- Python str.strip character class: ASCII whitespace. -/
def isPySpace (c : Char) : Bool :=
  c = ' ' || c = '\t' || c = '\n' || c = '\r' || c = '\x0b' || c = '\x0c'

/-- Python str.strip: remove leading and trailing whitespace. -/
def pyStrip (s : String) : String :=
  String.mk (((s.data.dropWhile isPySpace).reverse.dropWhile isPySpace).reverse)

/-- Helper for splitting a character list at commas. -/
def splitCommaAux : List Char → List Char → List (List Char)
  | [], acc => [acc.reverse]
  | c :: rest, acc =>
      if c = ',' then acc.reverse :: splitCommaAux rest []
      else splitCommaAux rest (c :: acc)

/-- Python s.split(","): split at every comma; the empty string gives one
empty piece. -/
def pySplitComma (s : String) : List String :=
  (splitCommaAux s.data []).map String.mk

/-- The normalization of the raw action result in step:
None gives the empty list, a string is comma-split with each piece stripped
and falsy (empty) pieces dropped, any other iterable is listed unchanged. -/
def normalizeActions : ActionResult → List String
  | ActionResult.noResult => []
  | ActionResult.ofStr s => ((pySplitComma s).map pyStrip).filter (fun t => t ≠ "")
  | ActionResult.ofList l => l

/-- Frame resolution of step: game_state.get("frame") or
game_state.get("visual", \x7b\x7d).get("screenshot"). A present frame (an
image) is truthy, so the or takes it; otherwise the nested lookup, with
lookups defaulting instead of raising. -/
def resolveFrame (gs : Snapshot) : Option Frame :=
  match gs.frame with
  | some f => some f
  | none => (gs.state.visual.getD { screenshot := none }).screenshot

/-- observation_dict.get("description", str(observation_dict)). -/
def observationText (d : ObsDict) : String :=
  d.description.getD d.str_repr

/-- The observation_entry dict built per tick: frame_id is
state_data.get("step_number", self.context["step_counter"]). -/
def observationEntry (sd : StateData) (t : String) (counter : Nat) : ObsEntry :=
  { frame_id := sd.step_number.getD counter, observation := t, state := sd }

/-- Agent.step in four-module mode. Mutations of self.context are threaded
exactly where the Python lines mutate it; an exception in a stage call jumps
to the except handler, which returns None with the context as mutated so
far. -/
def step (st : Stages) (ctx : Ctx) (gs : Snapshot) : Ctx × Option Decision :=
  let frame := resolveFrame gs
  let state_data := gs.state
  match st.perception_step frame state_data with
  | Except.error _ => (ctx, none)
  | Except.ok (observation_dict, slow_thinking_needed) =>
    let observation_text := observationText observation_dict
    let ctx1 : Ctx := { ctx with last_observation := some observation_dict }
    let entry := observationEntry state_data observation_text ctx1.step_counter
    match st.memory_step ctx1.memory_context ctx1.current_plan ctx1.recent_actions [entry] with
    | Except.error _ => (ctx1, none)
    | Except.ok memory_context =>
      let ctx2 : Ctx := { ctx1 with memory_context := memory_context }
      match st.planning_step memory_context ctx2.current_plan slow_thinking_needed state_data with
      | Except.error _ => (ctx2, none)
      | Except.ok current_plan =>
        let ctx3 : Ctx := { ctx2 with current_plan := current_plan }
        match st.action_step memory_context current_plan observation_text frame state_data ctx3.recent_actions with
        | Except.error _ => (ctx3, none)
        | Except.ok raw =>
          let actions := normalizeActions raw
          let ctx4 : Ctx := { ctx3 with
            recent_actions := actions.foldl (dequeAppend RECENT_MAXLEN) ctx3.recent_actions }
          let ctx5 : Ctx := { ctx4 with step_counter := ctx4.step_counter + 1 }
          (ctx5, some { action := actions, observation := observation_dict,
                        plan := current_plan, memory_context := memory_context })

/-- The context built by Agent.__init__ in four-module mode. -/
def initialContext : Ctx :=
  { memory_context := some "Initialized memory context"
    current_plan := none
    recent_actions := []
    last_observation := none
    step_counter := 0 }

/-- Running a sequence of ticks from the freshly initialized context. -/
def runSteps (ticks : List (Stages × Snapshot)) : Ctx :=
  ticks.foldl (fun c p => (step p.1 c p.2).1) initialContext

/-- A fixed observation dict used by the concrete stage behaviours below. -/
def sampleObs : ObsDict :=
  { description := some "obs", str_repr := "obs-dict" }

/-- Stage behaviours that always succeed with fixed outputs. -/
def okStages : Stages :=
  { perception_step := fun _ _ => Except.ok (sampleObs, false)
    memory_step := fun _ _ _ _ => Except.ok (some "memory")
    planning_step := fun _ _ _ _ => Except.ok (some "plan")
    action_step := fun _ _ _ _ _ _ => Except.ok (ActionResult.ofStr "LEFT") }

/-- Stage behaviours whose memory stage raises after perception succeeded. -/
def memFailStages : Stages :=
  { okStages with memory_step := fun _ _ _ _ => Except.error () }

/-- A snapshot with every optional key absent. -/
def emptySnapshot : Snapshot :=
  { frame := none
    state := { step_number := none, game_state := none, visual := none,
               audio_data := none, progress := none } }

theorem dequeAppend_eq_drop {α : Type} (N : Nat) (l : List α) (a : α) :
    dequeAppend N l a = (l ++ [a]).drop (l.length + 1 - N) := by
  simp only [dequeAppend, List.length_append, List.length_cons, List.length_nil]
  split
  · rfl
  · have h0 : l.length + 1 - N = 0 := by omega
    rw [h0, List.drop_zero]

theorem dequeAppend_length {α : Type} (N : Nat) (l : List α) (a : α) :
    (dequeAppend N l a).length = min N (l.length + 1) := by
  simp only [dequeAppend, List.length_append, List.length_cons, List.length_nil]
  split
  · simp only [List.length_drop, List.length_append, List.length_cons, List.length_nil]
    omega
  · simp only [List.length_append, List.length_cons, List.length_nil]
    omega

theorem foldl_dequeAppend_length_le {α : Type} (N : Nat) (toks : List α) (l : List α)
    (h : l.length ≤ N) :
    (List.foldl (dequeAppend N) l toks).length ≤ N := by
  induction toks generalizing l with
  | nil => simpa using h
  | cons a toks ih =>
      simp only [List.foldl_cons]
      exact ih (dequeAppend N l a) (by rw [dequeAppend_length]; omega)

theorem foldl_dequeAppend_eq {α : Type} (N : Nat) (toks : List α) (l : List α)
    (h : l.length ≤ N) :
    List.foldl (dequeAppend N) l toks = (l ++ toks).drop (l.length + toks.length - N) := by
  induction toks generalizing l with
  | nil =>
      simp only [List.foldl_nil, List.length_nil, List.append_nil]
      have h0 : l.length + 0 - N = 0 := by omega
      rw [h0, List.drop_zero]
  | cons a toks ih =>
      simp only [List.foldl_cons]
      rw [ih (dequeAppend N l a) (by rw [dequeAppend_length]; omega)]
      rw [dequeAppend_length, dequeAppend_eq_drop]
      have hle : l.length + 1 - N ≤ (l ++ [a]).length := by simp
      rw [← List.drop_append_of_le_length hle]
      rw [List.drop_drop]
      have harith :
          l.length + 1 - N + (min N (l.length + 1) + toks.length - N) =
            l.length + (a :: toks).length - N := by
        simp only [List.length_cons]
        omega
      rw [harith, List.append_assoc, List.singleton_append]

/-- Complete case analysis of one tick: exactly one of the four stage calls
is the first to raise, or all succeed; in each case the resulting context and
returned value are fully determined. -/
theorem step_cases (st : Stages) (ctx : Ctx) (gs : Snapshot) :
    (st.perception_step (resolveFrame gs) gs.state = Except.error () ∧
       step st ctx gs = (ctx, none)) ∨
    (∃ obs slow,
       st.perception_step (resolveFrame gs) gs.state = Except.ok (obs, slow) ∧
       st.memory_step ctx.memory_context ctx.current_plan ctx.recent_actions
         [observationEntry gs.state (observationText obs) ctx.step_counter] =
           Except.error () ∧
       step st ctx gs = ({ ctx with last_observation := some obs }, none)) ∨
    (∃ obs slow mc,
       st.perception_step (resolveFrame gs) gs.state = Except.ok (obs, slow) ∧
       st.memory_step ctx.memory_context ctx.current_plan ctx.recent_actions
         [observationEntry gs.state (observationText obs) ctx.step_counter] =
           Except.ok mc ∧
       st.planning_step mc ctx.current_plan slow gs.state = Except.error () ∧
       step st ctx gs =
         ({ ctx with last_observation := some obs, memory_context := mc }, none)) ∨
    (∃ obs slow mc plan,
       st.perception_step (resolveFrame gs) gs.state = Except.ok (obs, slow) ∧
       st.memory_step ctx.memory_context ctx.current_plan ctx.recent_actions
         [observationEntry gs.state (observationText obs) ctx.step_counter] =
           Except.ok mc ∧
       st.planning_step mc ctx.current_plan slow gs.state = Except.ok plan ∧
       st.action_step mc plan (observationText obs) (resolveFrame gs) gs.state
         ctx.recent_actions = Except.error () ∧
       step st ctx gs =
         ({ ctx with
              last_observation := some obs, memory_context := mc,
              current_plan := plan }, none)) ∨
    (∃ obs slow mc plan raw,
       st.perception_step (resolveFrame gs) gs.state = Except.ok (obs, slow) ∧
       st.memory_step ctx.memory_context ctx.current_plan ctx.recent_actions
         [observationEntry gs.state (observationText obs) ctx.step_counter] =
           Except.ok mc ∧
       st.planning_step mc ctx.current_plan slow gs.state = Except.ok plan ∧
       st.action_step mc plan (observationText obs) (resolveFrame gs) gs.state
         ctx.recent_actions = Except.ok raw ∧
       step st ctx gs =
         ({ ctx with
              last_observation := some obs, memory_context := mc,
              current_plan := plan,
              recent_actions :=
                (normalizeActions raw).foldl (dequeAppend RECENT_MAXLEN) ctx.recent_actions,
              step_counter := ctx.step_counter + 1 },
          some { action := normalizeActions raw, observation := obs,
                 plan := plan, memory_context := mc })) := by
  cases hp : st.perception_step (resolveFrame gs) gs.state with
  | error e =>
      cases e
      exact Or.inl ⟨rfl, by simp [step, hp]⟩
  | ok pr =>
      obtain ⟨obs, slow⟩ := pr
      cases hm : st.memory_step ctx.memory_context ctx.current_plan ctx.recent_actions
          [observationEntry gs.state (observationText obs) ctx.step_counter] with
      | error e =>
          cases e
          exact Or.inr (Or.inl ⟨obs, slow, rfl, hm, by simp [step, hp, hm]⟩)
      | ok mc =>
          cases hl : st.planning_step mc ctx.current_plan slow gs.state with
          | error e =>
              cases e
              exact Or.inr (Or.inr (Or.inl
                ⟨obs, slow, mc, rfl, hm, hl, by simp [step, hp, hm, hl]⟩))
          | ok plan =>
              cases ha : st.action_step mc plan (observationText obs) (resolveFrame gs)
                  gs.state ctx.recent_actions with
              | error e =>
                  cases e
                  exact Or.inr (Or.inr (Or.inr (Or.inl
                    ⟨obs, slow, mc, plan, rfl, hm, hl, ha, by simp [step, hp, hm, hl, ha]⟩)))
              | ok raw =>
                  exact Or.inr (Or.inr (Or.inr (Or.inr
                    ⟨obs, slow, mc, plan, raw, rfl, hm, hl, ha,
                      by simp [step, hp, hm, hl, ha]⟩)))

/-- One tick never pushes recent_actions past the capacity. -/
theorem step_recent_length_le (st : Stages) (ctx : Ctx) (gs : Snapshot)
    (h : ctx.recent_actions.length ≤ RECENT_MAXLEN) :
    ((step st ctx gs).1).recent_actions.length ≤ RECENT_MAXLEN := by
  rcases step_cases st ctx gs with
      ⟨_, he⟩ | ⟨obs, slow, _, _, he⟩ | ⟨obs, slow, mc, _, _, _, he⟩ |
      ⟨obs, slow, mc, plan, _, _, _, _, he⟩ |
      ⟨obs, slow, mc, plan, raw, _, _, _, _, he⟩ <;> rw [he]
  · exact h
  · exact h
  · exact h
  · exact h
  · exact foldl_dequeAppend_length_le _ _ _ h

/-- Folding ticks preserves the recent_actions bound. -/
theorem foldl_step_recent_le (ticks : List (Stages × Snapshot)) (ctx : Ctx)
    (h : ctx.recent_actions.length ≤ RECENT_MAXLEN) :
    (ticks.foldl (fun c p => (step p.1 c p.2).1) ctx).recent_actions.length ≤
      RECENT_MAXLEN := by
  induction ticks generalizing ctx with
  | nil => simpa using h
  | cons t ts ih =>
      simp only [List.foldl_cons]
      exact ih ((step t.1 ctx t.2).1) (step_recent_length_le _ _ _ h)

/-- Claim C1, as stated, fails on the code: with a memory stage that raises
after perception succeeded, step returns the failure sentinel yet the
context differs from the context before the call, because last_observation
was already mutated. -/
theorem C1_counterexample :
    (step memFailStages initialContext emptySnapshot).2 = none ∧
    (step memFailStages initialContext emptySnapshot).1 ≠ initialContext := by
  constructor
  · decide
  · decide

/-- Claim C1 (amended): if any stage raises, step returns the failure
sentinel with recent_actions and step_counter unchanged, and if the first
stage (perception) raises the whole context is unchanged; slots already
written by stages that completed before the failure keep their new values. -/
theorem C1_atomicity_amended (st : Stages) (ctx : Ctx) (gs : Snapshot)
    (h : (step st ctx gs).2 = none) :
    (step st ctx gs).1.recent_actions = ctx.recent_actions ∧
    (step st ctx gs).1.step_counter = ctx.step_counter ∧
    (st.perception_step (resolveFrame gs) gs.state = Except.error () →
      (step st ctx gs).1 = ctx) := by
  rcases step_cases st ctx gs with
      ⟨hp, he⟩ | ⟨obs, slow, hp, hm, he⟩ | ⟨obs, slow, mc, hp, hm, hl, he⟩ |
      ⟨obs, slow, mc, plan, hp, hm, hl, ha, he⟩ |
      ⟨obs, slow, mc, plan, raw, hp, hm, hl, ha, he⟩
  · rw [he]; exact ⟨rfl, rfl, fun _ => rfl⟩
  · rw [he]; exact ⟨rfl, rfl, fun hc => by simp [hp] at hc⟩
  · rw [he]; exact ⟨rfl, rfl, fun hc => by simp [hp] at hc⟩
  · rw [he]; exact ⟨rfl, rfl, fun hc => by simp [hp] at hc⟩
  · rw [he] at h; simp at h

/-- Witness for the amended C1 at a concrete failing tick. -/
theorem C1_amended_witness :
    (step memFailStages initialContext emptySnapshot).1.recent_actions =
      initialContext.recent_actions ∧
    (step memFailStages initialContext emptySnapshot).1.step_counter =
      initialContext.step_counter ∧
    (memFailStages.perception_step (resolveFrame emptySnapshot) emptySnapshot.state =
        Except.error () →
      (step memFailStages initialContext emptySnapshot).1 = initialContext) :=
  C1_atomicity_amended memFailStages initialContext emptySnapshot (by decide)

/-- Claim C2: recent_actions never exceeds the capacity — one tick preserves
the bound, every run from the initial context satisfies it — and inserting k
tokens into an empty buffer with k greater than N keeps exactly the last N
tokens in their original relative order. -/
theorem C2_recent_actions_bound (st : Stages) (ctx : Ctx) (gs : Snapshot)
    (h : ctx.recent_actions.length ≤ RECENT_MAXLEN) :
    (step st ctx gs).1.recent_actions.length ≤ RECENT_MAXLEN ∧
    (∀ ticks : List (Stages × Snapshot),
      (runSteps ticks).recent_actions.length ≤ RECENT_MAXLEN) ∧
    (∀ (N : Nat) (toks : List String), N < toks.length →
      List.foldl (dequeAppend N) [] toks = toks.drop (toks.length - N)) := by
  refine ⟨step_recent_length_le st ctx gs h, ?_, ?_⟩
  · intro ticks
    exact foldl_step_recent_le ticks initialContext (by simp [initialContext])
  · intro N toks _
    have hfold := foldl_dequeAppend_eq N toks [] (by simp)
    simpa using hfold

/-- Witness for C2 at a concrete tick from the initial context. -/
theorem C2_witness :
    (step okStages initialContext emptySnapshot).1.recent_actions.length ≤
      RECENT_MAXLEN :=
  (C2_recent_actions_bound okStages initialContext emptySnapshot (by decide)).1

/-- Claim C3: the action-result normalization maps Python None to the empty
list, a comma-delimited string to its trimmed nonempty tokens in order, and
any other iterable of tokens to itself; normalized string tokens are never
empty. -/
theorem C3_normalization :
    normalizeActions ActionResult.noResult = [] ∧
    normalizeActions (ActionResult.ofStr "A, B ,C") = ["A", "B", "C"] ∧
    normalizeActions (ActionResult.ofStr "") = [] ∧
    (∀ l : List String, normalizeActions (ActionResult.ofList l) = l) ∧
    (∀ s : String, ∀ t ∈ normalizeActions (ActionResult.ofStr s), t ≠ "") := by
  refine ⟨rfl, by decide, by decide, fun l => rfl, ?_⟩
  intro s t ht
  have hmem := List.mem_filter.mp ht
  simpa using hmem.2

/-- Witness for C3 instantiating the nonemptiness conjunct. -/
theorem C3_witness : "A" ≠ "" :=
  C3_normalization.2.2.2.2 "A,,B" "A" (by decide)

/-- Claim C4: step_counter advances by exactly one when a Decision is
returned, is unchanged when the failure sentinel is returned, and therefore
never decreases. -/
theorem C4_step_counter (st : Stages) (ctx : Ctx) (gs : Snapshot) :
    ((step st ctx gs).2.isSome = true →
      (step st ctx gs).1.step_counter = ctx.step_counter + 1) ∧
    ((step st ctx gs).2 = none →
      (step st ctx gs).1.step_counter = ctx.step_counter) ∧
    ctx.step_counter ≤ (step st ctx gs).1.step_counter := by
  rcases step_cases st ctx gs with
      ⟨hp, he⟩ | ⟨obs, slow, hp, hm, he⟩ | ⟨obs, slow, mc, hp, hm, hl, he⟩ |
      ⟨obs, slow, mc, plan, hp, hm, hl, ha, he⟩ |
      ⟨obs, slow, mc, plan, raw, hp, hm, hl, ha, he⟩ <;> rw [he]
  · exact ⟨fun hc => by simp at hc, fun _ => rfl, Nat.le_refl _⟩
  · exact ⟨fun hc => by simp at hc, fun _ => rfl, Nat.le_refl _⟩
  · exact ⟨fun hc => by simp at hc, fun _ => rfl, Nat.le_refl _⟩
  · exact ⟨fun hc => by simp at hc, fun _ => rfl, Nat.le_refl _⟩
  · exact ⟨fun _ => rfl, fun hn => by simp at hn, Nat.le_succ _⟩

/-- Witness for C4 at a concrete successful tick and a concrete failed one. -/
theorem C4_witness :
    (step okStages initialContext emptySnapshot).1.step_counter =
      initialContext.step_counter + 1 ∧
    (step memFailStages initialContext emptySnapshot).1.step_counter =
      initialContext.step_counter :=
  ⟨(C4_step_counter okStages initialContext emptySnapshot).1 (by decide),
   (C4_step_counter memFailStages initialContext emptySnapshot).2.1 (by decide)⟩

/-- Claim C5: for every snapshot — in particular one with any subset of the
optional keys absent — step does not fail because of a missing key: lookups
default (the empty snapshot resolves its frame to none) and whenever the
four stage calls succeed step returns a Decision. -/
theorem C5_missing_keys (st : Stages) (ctx : Ctx) (gs : Snapshot)
    (hp : ∀ f sd, ∃ r, st.perception_step f sd = Except.ok r)
    (hm : ∀ a b c d, ∃ r, st.memory_step a b c d = Except.ok r)
    (hl : ∀ a b c d, ∃ r, st.planning_step a b c d = Except.ok r)
    (ha : ∀ a b c d e f, ∃ r, st.action_step a b c d e f = Except.ok r) :
    ((step st ctx gs).2).isSome = true ∧ resolveFrame emptySnapshot = none := by
  refine ⟨?_, rfl⟩
  obtain ⟨⟨obs, slow⟩, hpe⟩ := hp (resolveFrame gs) gs.state
  obtain ⟨mc, hme⟩ := hm ctx.memory_context ctx.current_plan ctx.recent_actions
      [observationEntry gs.state (observationText obs) ctx.step_counter]
  obtain ⟨plan, hle⟩ := hl mc ctx.current_plan slow gs.state
  obtain ⟨raw, hae⟩ := ha mc plan (observationText obs) (resolveFrame gs) gs.state
      ctx.recent_actions
  simp [step, hpe, hme, hle, hae]

/-- Witness for C5 on the all-keys-absent snapshot with total stages. -/
theorem C5_witness :
    ((step okStages initialContext emptySnapshot).2).isSome = true ∧
    resolveFrame emptySnapshot = none :=
  C5_missing_keys okStages initialContext emptySnapshot
    (fun _ _ => ⟨(sampleObs, false), rfl⟩)
    (fun _ _ _ _ => ⟨some "memory", rfl⟩)
    (fun _ _ _ _ => ⟨some "plan", rfl⟩)
    (fun _ _ _ _ _ _ => ⟨ActionResult.ofStr "LEFT", rfl⟩)

/-- Claim C6: in four-module mode step either returns the failure sentinel or
a Decision populated with all four fields — the normalized actions, the
observation, the plan and the memory context of the tick — and a stage
exception is never propagated, only converted into the sentinel. -/
theorem C6_decision_total (st : Stages) (ctx : Ctx) (gs : Snapshot) :
    (step st ctx gs).2 = none ∨
    ∃ obs slow mc plan raw,
      st.perception_step (resolveFrame gs) gs.state = Except.ok (obs, slow) ∧
      st.memory_step ctx.memory_context ctx.current_plan ctx.recent_actions
        [observationEntry gs.state (observationText obs) ctx.step_counter] =
          Except.ok mc ∧
      st.planning_step mc ctx.current_plan slow gs.state = Except.ok plan ∧
      st.action_step mc plan (observationText obs) (resolveFrame gs) gs.state
        ctx.recent_actions = Except.ok raw ∧
      (step st ctx gs).2 =
        some { action := normalizeActions raw, observation := obs,
               plan := plan, memory_context := mc } := by
  rcases step_cases st ctx gs with
      ⟨_, he⟩ | ⟨obs, slow, _, _, he⟩ | ⟨obs, slow, mc, _, _, _, he⟩ |
      ⟨obs, slow, mc, plan, _, _, _, _, he⟩ |
      ⟨obs, slow, mc, plan, raw, hpe, hme, hle, hae, he⟩
  · exact Or.inl (by rw [he])
  · exact Or.inl (by rw [he])
  · exact Or.inl (by rw [he])
  · exact Or.inl (by rw [he])
  · exact Or.inr ⟨obs, slow, mc, plan, raw, hpe, hme, hle, hae, by rw [he]⟩

/-- Claim C7: the frame handed to the stages prefers the top-level frame key,
falls back to the screenshot nested under visual, and when both are absent
resolves to none while the tick still proceeds. -/
theorem C7_frame_resolution (gs : Snapshot) :
    (∀ f, gs.frame = some f → resolveFrame gs = some f) ∧
    (gs.frame = none → ∀ v, gs.state.visual = some v →
      resolveFrame gs = v.screenshot) ∧
    (gs.frame = none → gs.state.visual = none → resolveFrame gs = none) ∧
    (∀ ctx : Ctx, ((step okStages ctx gs).2).isSome = true) := by
  refine ⟨?_, ?_, ?_, ?_⟩
  · intro f hf
    simp [resolveFrame, hf]
  · intro hf v hv
    simp [resolveFrame, hf, hv]
  · intro hf hv
    simp [resolveFrame, hf, hv]
  · intro ctx
    simp [step, okStages]

/-- Witness for C7 at a snapshot with an explicit top-level frame. -/
theorem C7_witness :
    resolveFrame { frame := some 7, state := emptySnapshot.state } = some 7 :=
  (C7_frame_resolution { frame := some 7, state := emptySnapshot.state }).1 7 rfl

/-- Claim C8: memory_context is non-null at construction and, provided the
memory stage returns a non-null value on success, stays non-null after every
step, being either replaced by the stage output or left at its previous
value. -/
theorem C8_memory_context_nonnull (st : Stages) (ctx : Ctx) (gs : Snapshot)
    (hmem : ∀ a b c d r, st.memory_step a b c d = Except.ok r → r.isSome = true)
    (h : ctx.memory_context.isSome = true) :
    initialContext.memory_context.isSome = true ∧
    ((step st ctx gs).1.memory_context).isSome = true := by
  refine ⟨rfl, ?_⟩
  rcases step_cases st ctx gs with
      ⟨_, he⟩ | ⟨obs, slow, _, _, he⟩ | ⟨obs, slow, mc, _, hme, _, he⟩ |
      ⟨obs, slow, mc, plan, _, hme, _, _, he⟩ |
      ⟨obs, slow, mc, plan, raw, _, hme, _, _, he⟩
  · rw [he]; exact h
  · rw [he]; exact h
  · rw [he]; exact hmem _ _ _ _ _ hme
  · rw [he]; exact hmem _ _ _ _ _ hme
  · rw [he]; exact hmem _ _ _ _ _ hme

/-- Witness for C8 with total stages from the initial context. -/
theorem C8_witness :
    initialContext.memory_context.isSome = true ∧
    ((step okStages initialContext emptySnapshot).1.memory_context).isSome = true :=
  C8_memory_context_nonnull okStages initialContext emptySnapshot
    (fun a b c d r hr => by
      simp [okStages] at hr
      exact hr ▸ rfl)
    rfl

/-- Claim C9: the observation entry has frame_id equal to the snapshot
step_number when that key is present and to the orchestrator step_counter
when absent, and on every successful tick the memory stage receives exactly
that entry built from this snapshot and the pre-tick counter. -/
theorem C9_frame_id (st : Stages) (ctx : Ctx) (gs : Snapshot)
    (sd : StateData) (t : String) (c : Nat) :
    ((∀ n, sd.step_number = some n → (observationEntry sd t c).frame_id = n) ∧
     (sd.step_number = none → (observationEntry sd t c).frame_id = c)) ∧
    (((step st ctx gs).2).isSome = true →
      ∃ obs slow mc,
        st.perception_step (resolveFrame gs) gs.state = Except.ok (obs, slow) ∧
        st.memory_step ctx.memory_context ctx.current_plan ctx.recent_actions
          [observationEntry gs.state (observationText obs) ctx.step_counter] =
            Except.ok mc) := by
  constructor
  · constructor
    · intro n hn
      simp [observationEntry, hn]
    · intro hn
      simp [observationEntry, hn]
  · intro hs
    rcases step_cases st ctx gs with
        ⟨_, he⟩ | ⟨obs, slow, _, _, he⟩ | ⟨obs, slow, mc, hpe, hme, _, he⟩ |
        ⟨obs, slow, mc, plan, hpe, hme, _, _, he⟩ |
        ⟨obs, slow, mc, plan, raw, hpe, hme, _, _, he⟩
    · rw [he] at hs; simp at hs
    · rw [he] at hs; simp at hs
    · exact ⟨obs, slow, mc, hpe, hme⟩
    · exact ⟨obs, slow, mc, hpe, hme⟩
    · exact ⟨obs, slow, mc, hpe, hme⟩

/-- Witness for C9 at a state mapping with an explicit step number. -/
theorem C9_witness :
    (observationEntry
      { step_number := some 42, game_state := none, visual := none,
        audio_data := none, progress := none } "t" 7).frame_id = 42 :=
  (C9_frame_id okStages initialContext emptySnapshot
    { step_number := some 42, game_state := none, visual := none,
      audio_data := none, progress := none } "t" 7).1.1 42 rfl

/-- Claim C10: the capacity of recent_actions is exactly 25; every context
reachable by running ticks from the initial context holds at most 25 recent
actions, and appending to a buffer already holding 25 evicts exactly the
single oldest token. -/
theorem C10_capacity_25 :
    RECENT_MAXLEN = 25 ∧
    (∀ ticks : List (Stages × Snapshot),
      (runSteps ticks).recent_actions.length ≤ 25) ∧
    (∀ (l : List String) (a : String), l.length = 25 →
      dequeAppend RECENT_MAXLEN l a = l.drop 1 ++ [a]) := by
  refine ⟨rfl, ?_, ?_⟩
  · intro ticks
    exact foldl_step_recent_le ticks initialContext (by simp [initialContext])
  · intro l a hl
    have h1 : l.length + 1 - RECENT_MAXLEN = 1 := by rw [hl]; decide
    rw [dequeAppend_eq_drop, h1]
    exact List.drop_append_of_le_length (by omega)

/-- Witness for C10 on a concrete full buffer. -/
theorem C10_witness :
    dequeAppend RECENT_MAXLEN (List.replicate 25 "A") "Z" =
      (List.replicate 25 "A").drop 1 ++ ["Z"] :=
  C10_capacity_25.2.2 (List.replicate 25 "A") "Z" (by decide)

end Agent
